/-
Verification of the SmartdashPacketTracer route-simulation engine.

Shallow embedding of `src/sim/Localhost/smartdash_transfer_ws.py` (namespace-free
definitions below) and of `src/sim/(outdated_host)/smartdash_transfer_ws.py`
(namespace `Outdated`).  Python ints are modelled as `Int`, optional ints as
`Option Int`, Python floats (only the hop `speed_multiplier`) as `Rat` in exact
arithmetic, and JSON objects as structures whose `Option` fields stand for
optional keys (`none` = key absent).  Wall-clock timestamps (`iso_now`) are an
environment input that no claim depends on, so the `timestamp` field of the
wire messages is elided.
-/
import Mathlib

/-- One hop of a route (Localhost variant): a directed edge with timing and an
optional per-hop TTL override, mirroring the frozen dataclass `Hop`. -/
structure Hop where
  src : String
  dst : String
  protocol : String
  paket_rate_ms : Int := 1600
  ttl_ms : Option Int := none
  speed_multiplier : Rat := 1
deriving DecidableEq

/-- One named status step, mirroring the frozen dataclass `StatusStep`. -/
structure StatusStep where
  status : String
deriving DecidableEq

/-- Mutable per-route state, mirroring the dataclass `RouteRuntime`:
hops + steps + the current status-step index. -/
structure RouteRuntime where
  route_id : Int
  name : String
  hops : List Hop
  steps : List StatusStep
  packet_frequency_ms : Int
  step_index : Int := 0
deriving DecidableEq

/-- The index `snapshot` reads: `0 if total == 1 else (self.step_index % total)`.
Python `%` with a positive modulus yields a value in `[0, total)`; Lean's `Int`
`%` (`Int.emod`) agrees with it there. -/
def snapIdx (step_index : Int) (total : Nat) : Nat :=
  if total = 1 then 0 else (step_index % (total : Int)).toNat

/-- `RouteRuntime.snapshot`: the empty-steps case returns an empty label with
counters `(0, 0)`; otherwise it indexes `steps` at `snapIdx`, whose in-range
proof is discharged inline (the Python code indexes the plain list). -/
def RouteRuntime.snapshot (r : RouteRuntime) : StatusStep × Nat × Nat :=
  if h : r.steps = [] then ({ status := "" }, 0, 0)
  else
    (r.steps.get ⟨snapIdx r.step_index r.steps.length, by
       have hpos : 0 < r.steps.length := List.length_pos.mpr h
       unfold snapIdx
       split
       · omega
       · have h2 : (0 : Int) < (r.steps.length : Int) := by exact_mod_cast hpos
         have hlt : r.step_index % (r.steps.length : Int) < (r.steps.length : Int) :=
           Int.emod_lt_of_pos r.step_index h2
         have hnn : (0 : Int) ≤ r.step_index % (r.steps.length : Int) :=
           Int.emod_nonneg r.step_index (by positivity)
         have hcast : ((r.step_index % (r.steps.length : Int)).toNat : Int)
             = r.step_index % (r.steps.length : Int) := Int.toNat_of_nonneg hnn
         omega⟩,
     snapIdx r.step_index r.steps.length, r.steps.length)

/-- Python's `str.strip()` with no argument: remove leading and trailing
whitespace characters (for the ASCII whitespace that occurs here,
`Char.isWhitespace` and Python's notion agree). -/
def strip (s : String) : String :=
  ⟨((s.data.dropWhile Char.isWhitespace).reverse.dropWhile
      Char.isWhitespace).reverse⟩

/-- `RouteRuntime.set_step_by_status`: strips the given status (`(status or
"").strip()`; for a string argument this is just `.strip()`), rejects an
empty result or an empty step list, and otherwise sets `step_index` to the
first index whose step label equals the stripped string.  Returned pair =
(updated runtime, success flag); the Python method mutates `self` and returns
the flag. -/
def RouteRuntime.set_step_by_status (r : RouteRuntime) (status : String) :
    RouteRuntime × Bool :=
  let s := strip status
  if s = "" ∨ r.steps = [] then (r, false)
  else
    match r.steps.findIdx? (fun st => st.status == s) with
    | some i => ({ r with step_index := (i : Int) }, true)
    | none => (r, false)

/-- `RouteControl.set_status`: looks the route up by id (the registry dict
`route_by_id` is modelled as a function `Int → Option RouteRuntime`; `_get`'s
`int(route_id)` coercion is an identity here since ids are already `Int`) and
delegates to `set_step_by_status`, writing the updated runtime back. -/
def RouteControl.set_status (routes : Int → Option RouteRuntime)
    (route_id : Int) (status : String) : (Int → Option RouteRuntime) × Bool :=
  match routes route_id with
  | none => (routes, false)
  | some r =>
    let res := r.set_step_by_status status
    (fun k => if k = route_id then some res.1 else routes k, res.2)

/-- Payload attached by `make_packet_with_route` (the five keys it writes). -/
structure PacketPayload where
  routeId : Int
  routeName : String
  status : String
  statusIndex : Nat
  statusTotal : Nat
deriving DecidableEq

/-- The inner packet object built by `make_packet` (Localhost variant).
`ttlMs = none` models the `"ttlMs"` key being absent; `payload = none` models
the `"payload"` key being absent.  The wall-clock `timestamp` field is elided
(environment input). -/
structure Packet where
  sourceDeviceId : String
  targetDeviceId : String
  protocol : String
  packetRateMs : Int
  speedMultiplier : Rat
  packetId : String
  messageType : String
  ttlMs : Option Int
  payload : Option PacketPayload
deriving DecidableEq

/-- One outbound wire message (the `"type"` discriminator of the JSON objects
built by `make_log`, `make_config`, `make_route_status`, `make_packet`). -/
inductive OutMsg where
  | log (level : String) (text : String)
  | config (updateRateMs : Int)
  | routeStatus (routeId : Int) (status : String)
  | packet (p : Packet)
deriving DecidableEq

/-- `make_log(text, level="info")`. -/
def make_log (text : String) (level : String := "info") : OutMsg :=
  OutMsg.log level text

/-- `make_packet` (Localhost variant): the `ttlMs` key is written exactly when
`ttl_ms_to_send` is not `None`; no `payload` key is written. -/
def make_packet (hop : Hop) (packet_id : String) (ttl_ms_to_send : Option Int) :
    Packet :=
  { sourceDeviceId := hop.src
    targetDeviceId := hop.dst
    protocol := hop.protocol
    packetRateMs := hop.paket_rate_ms
    speedMultiplier := hop.speed_multiplier
    packetId := packet_id
    messageType := "transfer_ws_server"
    ttlMs := ttl_ms_to_send
    payload := none }

/-- `make_packet_with_route`: builds the base packet and fills in the payload
(`routeId`, `routeName`, `status`, `statusIndex`, `statusTotal`). -/
def make_packet_with_route (hop : Hop) (packet_id : String)
    (ttl_ms_to_send : Option Int) (route : RouteRuntime) (step : StatusStep)
    (step_index step_total : Nat) : Packet :=
  let p := make_packet hop packet_id ttl_ms_to_send
  let pl : PacketPayload :=
    ⟨route.route_id, route.name, step.status, step_index, step_total⟩
  { p with payload := some pl }

/-- The per-hop TTL choice of `send_one_packet_sequence` (and, identically, of
the outdated variant's `loop_route_sender`): a hop override wins at any
position, otherwise the route TTL is used at hop 0, otherwise nothing.
`route_ttl_ms` models the module constant `ROUTE_TTL_MS` read into
`ttl_for_first_hop`: both source files set it to `9000`, and the outdated
variant documents `None` as an allowed value meaning "send no ttlMs". -/
def ttl_to_send (route_ttl_ms : Option Int) (hop : Hop) (i : Nat) : Option Int :=
  match hop.ttl_ms with
  | some t => some t
  | none => if i = 0 then route_ttl_ms else none

/-- The module constant `ROUTE_TTL_MS = 9000` of both source files. -/
def ROUTE_TTL_MS : Option Int := some 9000

/-- The ordered list of hop messages one packet traversal emits
(`send_one_packet_sequence`): one `make_packet_with_route` message per hop, in
hop order, with the TTL of `ttl_to_send`.  The inter-hop sleeps are modelled
separately by `hop_sleep_ms`. -/
def send_one_packet_sequence (route_ttl_ms : Option Int) (route : RouteRuntime)
    (packet_id : String) (step : StatusStep) (idx total : Nat) : List Packet :=
  route.hops.enum.map fun p =>
    make_packet_with_route p.2 packet_id (ttl_to_send route_ttl_ms p.2 p.1)
      route step idx total

/-- Python's built-in `round` on the exact value of its argument: round half to
even (banker's rounding).  For non-half values it agrees with Mathlib's
`round` (round half up never fires there); at exact halves it picks the even
neighbour, as Python does (`round(0.5) == 0`, `round(1.5) == 2`). -/
def pyRound (q : Rat) : Int :=
  if q - ⌊q⌋ = 1 / 2 then (if ⌊q⌋ % 2 = 0 then ⌊q⌋ else ⌊q⌋ + 1) else round q

theorem pyRound_intCast (n : Int) : pyRound (n : Rat) = n := by
  simp [pyRound]

/-- `effective_ms = int(round(hop.paket_rate_ms * float(hop.speed_multiplier * .5)))`
from `send_one_packet_sequence`, in exact rational arithmetic (the float
product is exact for the power-of-two factor `0.5` whenever the multiplier
itself is exactly representable, e.g. `1.0`). -/
def effective_ms (hop : Hop) : Int :=
  pyRound ((hop.paket_rate_ms : Rat) * (hop.speed_multiplier * (1 / 2)))

/-- The Localhost variant's pause after emitting a hop message:
`await asyncio.sleep(max(10, effective_ms) / 1000)`, i.e. `max 10 effective_ms`
milliseconds. -/
def hop_sleep_ms (hop : Hop) : Int :=
  max 10 (effective_ms hop)

/-- The per-hop pause the specification's words prescribe:
`max(0, effectiveHopDelay)` with `effectiveHopDelay` the hop's nominal
duration minus the route's `hopOverlapMs`.  Stated from the spec for the
refinement comparison with the two variants' actual sleeps. -/
def spec_hop_sleep_ms (nominalDurationMs hopOverlapMs : Int) : Int :=
  max 0 (nominalDurationMs - hopOverlapMs)

/-- The pre-loop phase of the Localhost `loop_route_sender`: the emitted log
messages and whether the injection loop is reached at all.  A route with no
hops yields a single warn log and returns before creating any traversal task;
otherwise a success log is emitted and the infinite injection loop (modelled
by `sender_run` below) is entered. -/
def loop_route_sender_init (route : RouteRuntime) : List OutMsg × Bool :=
  if route.hops = [] then
    ([make_log ("Route " ++ toString route.route_id ++
        " hat keine Hops – keine Packets.") "warn"], false)
  else
    ([make_log ("Starte Route-Sender " ++ toString route.route_id ++ ".")
        "success"], true)

/-- `MAX_INFLIGHT_PER_ROUTE = 1`. -/
def MAX_INFLIGHT_PER_ROUTE : Nat := 1

/-- The injector loop's bookkeeping state: one `Bool` per spawned,
not-yet-reaped traversal task in the `inflight` set (`true` = the task is
done), plus the packet sequence counter `seq`. -/
structure InflightState where
  inflight : List Bool
  seq : Nat
deriving DecidableEq

/-- Environment step: between two ticks of the injector loop the cooperative
scheduler may finish any subset of in-flight traversal tasks; `mask.getD i
false` tells whether task `i` finished during that window. -/
def complete_tasks (mask : List Bool) (s : InflightState) : InflightState :=
  { s with inflight := s.inflight.mapIdx fun i d => d || mask.getD i false }

/-- First part of each tick: `done = {t for t in inflight if t.done()}` is
removed from the set (the result of each reaped task is only reported). -/
def reap_done (s : InflightState) : InflightState :=
  { s with inflight := s.inflight.filter fun d => !d }

/-- Second part of each tick: `if len(inflight) < MAX_INFLIGHT_PER_ROUTE`,
create one fresh (not yet done) traversal task and advance `seq`. -/
def maybe_start_packet (s : InflightState) : InflightState :=
  if s.inflight.length < MAX_INFLIGHT_PER_ROUTE then
    { inflight := s.inflight ++ [false], seq := s.seq + 1 }
  else s

/-- One full iteration of the injector's `while True` body, fed with the
completions that occurred during the preceding sleep. -/
def sender_tick (mask : List Bool) (s : InflightState) : InflightState :=
  maybe_start_packet (reap_done (complete_tasks mask s))

/-- The injector loop after any finite number of ticks, starting from the
empty in-flight set, under an arbitrary completion schedule. -/
def sender_run (masks : List (List Bool)) : InflightState :=
  masks.foldl (fun s m => sender_tick m s) { inflight := [], seq := 0 }

namespace Outdated

/-- One hop of the outdated-host variant: `edge_travel_ms` instead of
`paket_rate_ms`, no speed multiplier. -/
structure Hop where
  src : String
  dst : String
  protocol : String
  edge_travel_ms : Int := 1600
  ttl_ms : Option Int := none
deriving DecidableEq

/-- `OVERLAP_MS = 1800`: the next edge starts before the previous one is
"perfectly" finished. -/
def OVERLAP_MS : Int := 1800

/-- The inner packet object of the outdated variant's `make_packet`:
`edgeTravelMs` instead of `packetRateMs`, a fixed story payload, and the same
optional `ttlMs` key (`none` = key absent).  `timestamp` again elided. -/
structure Packet where
  sourceDeviceId : String
  targetDeviceId : String
  protocol : String
  edgeTravelMs : Int
  packetId : String
  messageType : String
  story : String
  ttlMs : Option Int
deriving DecidableEq

/-- Outdated `make_packet`: writes `ttlMs` exactly when `ttl_ms_to_send` is
not `None`. -/
def make_packet (hop : Hop) (packet_id : String) (ttl_ms_to_send : Option Int) :
    Packet :=
  { sourceDeviceId := hop.src
    targetDeviceId := hop.dst
    protocol := hop.protocol
    edgeTravelMs := hop.edge_travel_ms
    packetId := packet_id
    messageType := "transfer_ws_server"
    story := "Sim läuft hop-by-hop durchs Netzwerk."
    ttlMs := ttl_ms_to_send }

/-- The per-hop TTL choice inside the outdated `loop_route_sender` (same
branch structure as the Localhost variant). -/
def ttl_to_send (route_ttl_ms : Option Int) (hop : Hop) (i : Nat) : Option Int :=
  match hop.ttl_ms with
  | some t => some t
  | none => if i = 0 then route_ttl_ms else none

/-- The outdated variant's pause after sending a hop:
`sleep_ms = max(0, hop.edge_travel_ms - OVERLAP_MS)`. -/
def sleep_ms (hop : Hop) : Int :=
  max 0 (hop.edge_travel_ms - OVERLAP_MS)

/-- The hop messages one iteration of the outdated `loop_route_sender` sends
for a single `packet_id`, in hop order. -/
def route_packets (route_ttl_ms : Option Int) (hops : List Hop)
    (packet_id : String) : List Packet :=
  hops.enum.map fun p => make_packet p.2 packet_id (ttl_to_send route_ttl_ms p.2 p.1)

end Outdated

/-- Modelled from the spec: the `stop(routeId)` operation of §4.4's Route
Registry / Control surface.  The source files under `src/` do not contain the
start/stop/list control-surface variant (the Localhost `RouteControl` exposes
only `set_status`), so this follows the spec's words: with no runtime
registered for the id it reports "not active" as a failure and does nothing
else; with a runtime it cancels and removes it and emits a confirmation.
Result = (registry afterwards, success flag, messages sent to the peer). -/
def registry_stop (registry : Int → Option RouteRuntime) (route_id : Int) :
    (Int → Option RouteRuntime) × Bool × List OutMsg :=
  match registry route_id with
  | none =>
    (registry, false,
     [make_log ("Route " ++ toString route_id ++ " not active") "warn"])
  | some _ =>
    (fun k => if k = route_id then none else registry k, true,
     [make_log ("Route " ++ toString route_id ++ " stopped") "success"])

/-- Concrete hop without a TTL override (defaults of the dataclass). -/
def c1hop0 : Hop := { src := "switchbot_fensterkontakt", dst := "switchbot_hub", protocol := "BLE" }

/-- Concrete hop with a TTL override of 65000 ms, as in the shipped routes. -/
def c1hop1 : Hop := { src := "switchbot_hub", dst := "wifi_hub", protocol := "WLAN", ttl_ms := some 65000 }

/-- Concrete two-hop route for exercising the TTL rule. -/
def c1route : RouteRuntime :=
  { route_id := 37, name := "w", hops := [c1hop0, c1hop1], steps := [],
    packet_frequency_ms := 1000 }

/-- The hop-1 message of a `c1route` traversal. -/
def c1msg : Packet :=
  make_packet_with_route c1hop1 "p1" (some 65000) c1route { status := "" } 0 0

/-- Route whose only status step carries the empty label. -/
def c3route : RouteRuntime :=
  { route_id := 1, name := "", hops := [], steps := [{ status := "" }],
    packet_frequency_ms := 1000 }

/-- Registry holding exactly `c3route` under id 1. -/
def c3routes : Int → Option RouteRuntime :=
  fun k => if k = 1 then some c3route else none

/-- Route with two distinct status steps, the label `b` appearing twice. -/
def c3wroute : RouteRuntime :=
  { route_id := 2, name := "", hops := [],
    steps := [{ status := "a" }, { status := "b" }, { status := "b" }],
    packet_frequency_ms := 1000 }

/-- Registry holding exactly `c3wroute` under id 2. -/
def c3wroutes : Int → Option RouteRuntime :=
  fun k => if k = 2 then some c3wroute else none

/-- Route with one hop and two status steps, for the snapshot-stability and
snapshot-range witnesses. -/
def c4route : RouteRuntime :=
  { route_id := 5, name := "r5", hops := [c1hop0],
    steps := [{ status := "s0" }, { status := "s1" }],
    packet_frequency_ms := 1000 }

/-- Localhost hop with the default rate 1600 and multiplier 1. -/
def c5hopA : Hop := { src := "a", dst := "b", protocol := "Ethernet" }

/-- Localhost hop with rate 4000 and multiplier 1. -/
def c5hopB : Hop := { src := "b", dst := "c", protocol := "Ethernet", paket_rate_ms := 4000 }

/-- Outdated-variant hop with the default travel time 1600. -/
def c5hopOut : Outdated.Hop := { src := "a", dst := "b", protocol := "Ethernet" }

/-- Route with two override-free hops and the route TTL left unset. -/
def c6route : RouteRuntime :=
  { route_id := 6, name := "r6", hops := [c5hopA, c5hopB], steps := [],
    packet_frequency_ms := 1000 }

/-- Route with no hops at all. -/
def c8route : RouteRuntime :=
  { route_id := 8, name := "r8", hops := [], steps := [], packet_frequency_ms := 1000 }

/-- Route with two steps and a negative `step_index`. -/
def c10route : RouteRuntime :=
  { route_id := 10, name := "r10", hops := [], steps := [{ status := "a" }, { status := "b" }],
    packet_frequency_ms := 1000, step_index := -5 }

theorem snapIdx_lt (step_index : Int) (total : Nat) (h : 0 < total) :
    snapIdx step_index total < total := by
  unfold snapIdx
  split
  · omega
  · have h2 : (0 : Int) < (total : Int) := by exact_mod_cast h
    have hlt : step_index % (total : Int) < (total : Int) :=
      Int.emod_lt_of_pos step_index h2
    have hnn : (0 : Int) ≤ step_index % (total : Int) :=
      Int.emod_nonneg step_index (by positivity)
    have hcast : ((step_index % (total : Int)).toNat : Int) = step_index % (total : Int) :=
      Int.toNat_of_nonneg hnn
    omega

theorem length_send_one_packet_sequence (route_ttl_ms : Option Int)
    (route : RouteRuntime) (packet_id : String) (step : StatusStep)
    (idx total : Nat) :
    (send_one_packet_sequence route_ttl_ms route packet_id step idx total).length
      = route.hops.length := by
  simp [send_one_packet_sequence]

theorem getElem?_send_one_packet_sequence (route_ttl_ms : Option Int)
    (route : RouteRuntime) (packet_id : String) (step : StatusStep)
    (idx total i : Nat) :
    (send_one_packet_sequence route_ttl_ms route packet_id step idx total)[i]?
      = (route.hops[i]?).map fun hop =>
          make_packet_with_route hop packet_id (ttl_to_send route_ttl_ms hop i)
            route step idx total := by
  simp [send_one_packet_sequence, List.getElem?_map, List.getElem?_enum,
    Option.map_map]
  rfl

theorem ttlMs_make_packet_with_route (hop : Hop) (packet_id : String)
    (t : Option Int) (route : RouteRuntime) (step : StatusStep)
    (idx total : Nat) :
    (make_packet_with_route hop packet_id t route step idx total).ttlMs = t := rfl

/-- C1.  TTL carry-over: in the hop-message list of one packet traversal, the
message at index `i` carries `ttlMs` iff the hop has its own override or
(`i = 0` and the route TTL is set); an override is stamped verbatim at any
position, hop 0 without an override is stamped with the route TTL, and every
other message omits the field. -/
theorem ttl_carry_over_per_hop (route_ttl_ms : Option Int) (r : RouteRuntime)
    (packet_id : String) (step : StatusStep) (idx total i : Nat) (hop : Hop)
    (msg : Packet)
    (hhop : r.hops[i]? = some hop)
    (hmsg : (send_one_packet_sequence route_ttl_ms r packet_id step idx total)[i]?
              = some msg) :
    (msg.ttlMs.isSome ↔ (hop.ttl_ms.isSome ∨ (i = 0 ∧ route_ttl_ms.isSome)))
    ∧ (∀ t, hop.ttl_ms = some t → msg.ttlMs = some t)
    ∧ (hop.ttl_ms = none → i = 0 → msg.ttlMs = route_ttl_ms)
    ∧ (hop.ttl_ms = none → 0 < i → msg.ttlMs = none) := by
  rw [getElem?_send_one_packet_sequence, hhop] at hmsg
  have hmsg2 : msg = make_packet_with_route hop packet_id
      (ttl_to_send route_ttl_ms hop i) r step idx total := by
    simpa using hmsg.symm
  subst hmsg2
  rw [ttlMs_make_packet_with_route]
  unfold ttl_to_send
  rcases hov : hop.ttl_ms with _ | t
  · constructor
    · by_cases hi : i = 0 <;> simp [hi]
    · refine ⟨by simp, fun _ hi => by simp [hi], fun _ hi => ?_⟩
      have hne : i ≠ 0 := by omega
      simp [hne]
  · constructor
    · simp
    · exact ⟨fun t2 h2 => by simp_all, fun h2 => by simp_all, fun h2 => by simp_all⟩

/-- C1 witness: on the concrete two-hop route, hop 1 carries its override. -/
theorem ttl_carry_over_per_hop_witness :
    (c1route.hops[1]? = some c1hop1)
    ∧ ((send_one_packet_sequence (some 9000) c1route "p1" { status := "" } 0 0)[1]?
         = some c1msg)
    ∧ ((c1msg.ttlMs.isSome ↔ (c1hop1.ttl_ms.isSome ∨ (1 = 0 ∧ (some (9000 : Int)).isSome)))
       ∧ (∀ t, c1hop1.ttl_ms = some t → c1msg.ttlMs = some t)
       ∧ (c1hop1.ttl_ms = none → 1 = 0 → c1msg.ttlMs = some 9000)
       ∧ (c1hop1.ttl_ms = none → 0 < 1 → c1msg.ttlMs = none)) :=
  ⟨rfl, rfl,
   ttl_carry_over_per_hop (some 9000) c1route "p1" { status := "" } 0 0 1 c1hop1
     c1msg rfl rfl⟩

theorem length_complete_tasks (mask : List Bool) (s : InflightState) :
    (complete_tasks mask s).inflight.length = s.inflight.length := by
  simp [complete_tasks]

theorem length_reap_done_le (s : InflightState) :
    (reap_done s).inflight.length ≤ s.inflight.length := by
  simpa [reap_done] using List.length_filter_le _ s.inflight

theorem inflight_le_tick (mask : List Bool) (s : InflightState)
    (h : s.inflight.length ≤ MAX_INFLIGHT_PER_ROUTE) :
    (sender_tick mask s).inflight.length ≤ MAX_INFLIGHT_PER_ROUTE := by
  unfold sender_tick maybe_start_packet
  have h1 := length_reap_done_le (complete_tasks mask s)
  have h2 := length_complete_tasks mask s
  split
  · simp only [List.length_append, List.length_cons, List.length_nil]
    unfold MAX_INFLIGHT_PER_ROUTE at *
    omega
  · omega

/-- C2.  Backpressure invariant of the Localhost injector loop: starting from
an empty in-flight set, after every tick — under any schedule of traversal
completions — the in-flight set has at most `MAX_INFLIGHT_PER_ROUTE = 1`
member (reaping and completion only shrink or relabel the set mid-tick, so the
post-tick bound is the per-iteration maximum), and a tick starts a new
traversal task (advances `seq`) precisely when the set, after reaping the
completed tasks, has fewer than `MAX_INFLIGHT_PER_ROUTE` members. -/
theorem inflight_cap_invariant (masks : List (List Bool)) :
    (sender_run masks).inflight.length ≤ MAX_INFLIGHT_PER_ROUTE
    ∧ ∀ mask s, ((sender_tick mask s).seq = s.seq + 1
        ↔ (reap_done (complete_tasks mask s)).inflight.length
            < MAX_INFLIGHT_PER_ROUTE) := by
  constructor
  · have key : ∀ (ms : List (List Bool)) (s : InflightState),
        s.inflight.length ≤ MAX_INFLIGHT_PER_ROUTE →
        (ms.foldl (fun s m => sender_tick m s) s).inflight.length
          ≤ MAX_INFLIGHT_PER_ROUTE := by
      intro ms
      induction ms with
      | nil => intro s hs; simpa using hs
      | cons m rest ih =>
        intro s hs
        exact ih _ (inflight_le_tick m s hs)
    exact key masks { inflight := [], seq := 0 } (by simp)
  · intro mask s
    have hseq : (reap_done (complete_tasks mask s)).seq = s.seq := rfl
    by_cases hc : (reap_done (complete_tasks mask s)).inflight.length
        < MAX_INFLIGHT_PER_ROUTE
    · simp [sender_tick, maybe_start_packet, hc, hseq]
    · simp only [sender_tick, maybe_start_packet, hc, if_false, hseq]
      constructor
      · intro habs
        omega
      · intro hlt
        exact hlt.elim

/-- C3 counterexample.  The claim demands success for *every* label string
that matches a step after trimming, but `set_step_by_status` rejects any label
that trims to the empty string before scanning: with a found route whose
non-empty step list starts with the empty-label step — an exact (trimmed,
case-sensitive) match for the label `""` at position 0 — `setStatus` returns
failure instead of setting `currentStepIndex` to 0. -/
theorem set_status_empty_label_counterexample :
    c3routes 1 = some c3route
    ∧ c3route.steps ≠ []
    ∧ strip "" = ""
    ∧ c3route.steps[0]? = some { status := "" }
    ∧ (RouteControl.set_status c3routes 1 "").2 = false
    ∧ (RouteControl.set_status c3routes 1 "").1 1 = some c3route := by
  refine ⟨rfl, by simp [c3route], by decide, rfl, by decide, by decide⟩

/-- C3 (amended).  Provided the given label does not trim to the empty string,
`setStatus` on a found route sets `currentStepIndex` to the smallest position
whose step label equals the trimmed label exactly (case-sensitively) and
returns success, leaving every other registry entry untouched. -/
theorem set_status_found_eq (routes : Int → Option RouteRuntime)
    (route_id : Int) (label : String) (r : RouteRuntime)
    (hfound : routes route_id = some r) :
    RouteControl.set_status routes route_id label
      = (fun k => if k = route_id then some (r.set_step_by_status label).1
           else routes k, (r.set_step_by_status label).2) := by
  unfold RouteControl.set_status
  rw [hfound]

theorem set_status_first_match (routes : Int → Option RouteRuntime)
    (route_id : Int) (label : String) (r : RouteRuntime) (i : Nat)
    (st : StatusStep)
    (hfound : routes route_id = some r)
    (hne : strip label ≠ "")
    (hst : r.steps[i]? = some st)
    (hmatch : st.status = strip label)
    (hfirst : ∀ j st2, j < i → r.steps[j]? = some st2 → st2.status ≠ strip label) :
    (RouteControl.set_status routes route_id label).2 = true
    ∧ (RouteControl.set_status routes route_id label).1 route_id
        = some { r with step_index := (i : Int) }
    ∧ ∀ k, k ≠ route_id →
        (RouteControl.set_status routes route_id label).1 k = routes k := by
  have hi : i < r.steps.length := (List.getElem?_eq_some_iff.mp hst).1
  have hfind : r.steps.findIdx? (fun st2 => st2.status == strip label) = some i := by
    rw [List.findIdx?_eq_some_iff_getElem]
    refine ⟨hi, ?_, ?_⟩
    · have hgi : r.steps[i] = st := by
        simpa [List.getElem?_eq_getElem hi] using hst
      simp [hgi, hmatch]
    · intro j hj
      have hjlen : j < r.steps.length := lt_trans hj hi
      have := hfirst j (r.steps[j]) hj (List.getElem?_eq_getElem hjlen)
      simpa using this
  have hsteps : r.steps ≠ [] := by
    intro habs
    rw [habs] at hi
    simp at hi
  have hset : r.set_step_by_status label
      = ({ r with step_index := (i : Int) }, true) := by
    unfold RouteRuntime.set_step_by_status
    rw [if_neg (by simp [hne, hsteps]), hfind]
  rw [set_status_found_eq routes route_id label r hfound, hset]
  exact ⟨rfl, by simp, fun k hk => by simp [hk]⟩

/-- C3 witness: on a registry holding a route with steps `a`, `b`, `b`, the
label `" b "` (whitespace to be stripped) selects position 1, the smallest
match. -/
theorem set_status_first_match_witness :
    c3wroutes 2 = some c3wroute
    ∧ strip " b " ≠ ""
    ∧ c3wroute.steps[1]? = some { status := "b" }
    ∧ (StatusStep.mk "b").status = strip " b "
    ∧ ((RouteControl.set_status c3wroutes 2 " b ").2 = true
       ∧ (RouteControl.set_status c3wroutes 2 " b ").1 2
           = some { c3wroute with step_index := (1 : Int) }
       ∧ ∀ k, k ≠ 2 →
           (RouteControl.set_status c3wroutes 2 " b ").1 k = c3wroutes k) :=
  ⟨rfl, by decide, rfl, by decide,
   set_status_first_match c3wroutes 2 " b " c3wroute 1 { status := "b" } rfl
     (by decide) rfl (by decide)
     (by
       intro j st2 hj hst2
       have hj0 : j = 0 := by omega
       subst hj0
       simp [c3wroute] at hst2
       subst hst2
       decide)⟩

theorem set_status_not_found_eq (routes : Int → Option RouteRuntime)
    (route_id : Int) (label : String) (h : routes route_id = none) :
    RouteControl.set_status routes route_id label = (routes, false) := by
  unfold RouteControl.set_status
  rw [h]

theorem set_step_by_status_eq (r : RouteRuntime) (label : String) :
    r.set_step_by_status label =
      if strip label = "" ∨ r.steps = [] then (r, false)
      else
        match r.steps.findIdx? (fun st => st.status == strip label) with
        | some i => ({ r with step_index := (i : Int) }, true)
        | none => (r, false) := rfl

theorem set_step_by_status_failure (r : RouteRuntime) (label : String)
    (h : (r.set_step_by_status label).2 = false) :
    (r.set_step_by_status label).1 = r := by
  rw [set_step_by_status_eq] at h ⊢
  split_ifs at h ⊢ with hc
  · rfl
  · rcases hidx : r.steps.findIdx? (fun st => st.status == strip label) with _ | i
    · rw [hidx]
    · rw [hidx] at h
      simp at h

/-- C7.  A failed `setStatus` — unknown route, empty step list, or no matching
label — leaves the registry exactly as it was; in particular the found
route's `step_index` is unchanged. -/
theorem set_status_failure_no_side_effects (routes : Int → Option RouteRuntime)
    (route_id : Int) (label : String)
    (h : (RouteControl.set_status routes route_id label).2 = false) :
    (RouteControl.set_status routes route_id label).1 = routes
    ∧ ∀ r, routes route_id = some r →
        (RouteControl.set_status routes route_id label).1 route_id = some r := by
  rcases hcase : routes route_id with _ | r
  · rw [set_status_not_found_eq routes route_id label hcase]
    refine ⟨rfl, fun r hr => ?_⟩
    exact Option.noConfusion hr
  · rw [set_status_found_eq routes route_id label r hcase] at h ⊢
    have hfix : (r.set_step_by_status label).1 = r :=
      set_step_by_status_failure r label h
    have hfun : (fun k => if k = route_id
        then some (r.set_step_by_status label).1 else routes k) = routes := by
      funext k
      by_cases hk : k = route_id
      · rw [if_pos hk, hfix, hk, hcase]
      · rw [if_neg hk]
    refine ⟨hfun, fun r2 hr2 => ?_⟩
    show (if route_id = route_id then some (r.set_step_by_status label).1
      else routes route_id) = some r2
    rw [if_pos rfl, hfix]
    exact hr2

/-- C7 witness: `setStatus` on an empty registry fails and changes nothing. -/
theorem set_status_failure_no_side_effects_witness :
    (RouteControl.set_status (fun _ => none) 1 "x").2 = false
    ∧ ((RouteControl.set_status (fun _ => none) 1 "x").1
         = (fun _ => (none : Option RouteRuntime))
       ∧ ∀ r, (fun _ => (none : Option RouteRuntime)) 1 = some r →
           (RouteControl.set_status (fun _ => none) 1 "x").1 1 = some r) :=
  ⟨rfl, set_status_failure_no_side_effects (fun _ => none) 1 "x" rfl⟩

theorem set_step_by_status_preserves (r : RouteRuntime) (label : String) :
    (r.set_step_by_status label).1.hops = r.hops
    ∧ (r.set_step_by_status label).1.route_id = r.route_id
    ∧ (r.set_step_by_status label).1.name = r.name := by
  rw [set_step_by_status_eq]
  split_ifs with hc
  · exact ⟨rfl, rfl, rfl⟩
  · rcases hidx : r.steps.findIdx? (fun st => st.status == strip label) with _ | i
      <;> rw [hidx] <;> exact ⟨rfl, rfl, rfl⟩

/-- C4.  Stamped-at-creation-time semantics: the hop messages of a packet
traversal are computed from the status snapshot taken when the packet was
created; applying `setStatus` to the route's runtime (which only moves
`step_index`) does not change any of them, and every message of the packet
carries exactly the snapshot's label, index and total. -/
theorem status_snapshot_stability (route_ttl_ms : Option Int)
    (r : RouteRuntime) (packet_id label : String) :
    (send_one_packet_sequence route_ttl_ms (r.set_step_by_status label).1
        packet_id r.snapshot.1 r.snapshot.2.1 r.snapshot.2.2
      = send_one_packet_sequence route_ttl_ms r packet_id
        r.snapshot.1 r.snapshot.2.1 r.snapshot.2.2)
    ∧ ∀ msg ∈ send_one_packet_sequence route_ttl_ms r packet_id
        r.snapshot.1 r.snapshot.2.1 r.snapshot.2.2,
        msg.payload = some ⟨r.route_id, r.name, r.snapshot.1.status,
          r.snapshot.2.1, r.snapshot.2.2⟩ := by
  obtain ⟨hh, hid, hn⟩ := set_step_by_status_preserves r label
  constructor
  · unfold send_one_packet_sequence
    rw [hh]
    apply List.map_congr_left
    intro p hp
    simp [make_packet_with_route, make_packet, hid, hn]
  · intro msg hmsg
    unfold send_one_packet_sequence at hmsg
    obtain ⟨p, hp, rfl⟩ := List.mem_map.mp hmsg
    simp [make_packet_with_route, make_packet]

/-- C4 witness: instantiation on a concrete route with steps `s0`, `s1`. -/
theorem status_snapshot_stability_witness :
    (send_one_packet_sequence ROUTE_TTL_MS (c4route.set_step_by_status "s1").1
        "p" c4route.snapshot.1 c4route.snapshot.2.1 c4route.snapshot.2.2
      = send_one_packet_sequence ROUTE_TTL_MS c4route "p"
        c4route.snapshot.1 c4route.snapshot.2.1 c4route.snapshot.2.2)
    ∧ ∀ msg ∈ send_one_packet_sequence ROUTE_TTL_MS c4route "p"
        c4route.snapshot.1 c4route.snapshot.2.1 c4route.snapshot.2.2,
        msg.payload = some ⟨c4route.route_id, c4route.name,
          c4route.snapshot.1.status, c4route.snapshot.2.1,
          c4route.snapshot.2.2⟩ :=
  status_snapshot_stability ROUTE_TTL_MS c4route "p" "s1"

theorem hop_sleep_ms_c5hopA : hop_sleep_ms c5hopA = 800 := by
  have h1 : ((c5hopA.paket_rate_ms : Rat) * (c5hopA.speed_multiplier * (1 / 2)))
      = ((800 : Int) : Rat) := by
    norm_num [c5hopA]
  unfold hop_sleep_ms effective_ms
  rw [h1, pyRound_intCast]
  decide

theorem hop_sleep_ms_c5hopB : hop_sleep_ms c5hopB = 2000 := by
  have h1 : ((c5hopB.paket_rate_ms : Rat) * (c5hopB.speed_multiplier * (1 / 2)))
      = ((2000 : Int) : Rat) := by
    norm_num [c5hopB]
  unfold hop_sleep_ms effective_ms
  rw [h1, pyRound_intCast]
  decide

/-- C5 counterexample.  In the Localhost variant the pause after a hop is
`max(10, round(paket_rate_ms * speed_multiplier * 0.5))`: for the default hop
(rate 1600, multiplier 1) it is 800 ms and for a rate-4000 hop it is 2000 ms.
No non-negative `hopOverlapMs` makes the claimed
`max(0, nominalDuration - hopOverlapMs)` produce both values, so the claimed
formula does not describe this variant's inter-hop delay. -/
theorem hop_delay_formula_counterexample :
    hop_sleep_ms c5hopA = 800
    ∧ hop_sleep_ms c5hopB = 2000
    ∧ ¬ ∃ hopOverlapMs : Int, 0 ≤ hopOverlapMs
        ∧ spec_hop_sleep_ms c5hopA.paket_rate_ms hopOverlapMs = hop_sleep_ms c5hopA
        ∧ spec_hop_sleep_ms c5hopB.paket_rate_ms hopOverlapMs = hop_sleep_ms c5hopB := by
  refine ⟨hop_sleep_ms_c5hopA, hop_sleep_ms_c5hopB, ?_⟩
  rintro ⟨c, hc, h1, h2⟩
  rw [hop_sleep_ms_c5hopA] at h1
  rw [hop_sleep_ms_c5hopB] at h2
  have e1 : c5hopA.paket_rate_ms = 1600 := rfl
  have e2 : c5hopB.paket_rate_ms = 4000 := rfl
  rw [e1] at h1
  rw [e2] at h2
  unfold spec_hop_sleep_ms at h1 h2
  omega

/-- C5 (amended).  The two variants disagree on the inter-hop pause.  The
outdated-host variant implements the spec's formula literally: it sleeps
`max(0, edge_travel_ms - OVERLAP_MS)` after each hop, which is never
negative.  The Localhost variant instead sleeps
`max(10, round(paket_rate_ms * speed_multiplier * 0.5))` — a speed-multiplier
halving with a 10 ms floor, not an overlap subtraction — so its pause is
always at least 10 ms; for multiplier 1 and an even rate `2k` it is
`max 10 k`. -/
theorem hop_delay_variants (hOut : Outdated.Hop) (hLoc : Hop) (k : Int)
    (hrate : hLoc.paket_rate_ms = 2 * k) (hmult : hLoc.speed_multiplier = 1) :
    Outdated.sleep_ms hOut
      = spec_hop_sleep_ms hOut.edge_travel_ms Outdated.OVERLAP_MS
    ∧ 0 ≤ Outdated.sleep_ms hOut
    ∧ 10 ≤ hop_sleep_ms hLoc
    ∧ hop_sleep_ms hLoc = max 10 k := by
  refine ⟨rfl, le_max_left _ _, le_max_left _ _, ?_⟩
  unfold hop_sleep_ms effective_ms
  have h1 : ((hLoc.paket_rate_ms : Rat) * (hLoc.speed_multiplier * (1 / 2)))
      = ((k : Int) : Rat) := by
    rw [hrate, hmult]
    push_cast
    ring
  rw [h1, pyRound_intCast]

/-- C5 witness: the default hop (rate 1600 = 2·800, multiplier 1) and an
outdated-variant default hop. -/
theorem hop_delay_variants_witness :
    (c5hopA.paket_rate_ms = 2 * 800 ∧ c5hopA.speed_multiplier = 1)
    ∧ (Outdated.sleep_ms c5hopOut
         = spec_hop_sleep_ms c5hopOut.edge_travel_ms Outdated.OVERLAP_MS
       ∧ 0 ≤ Outdated.sleep_ms c5hopOut
       ∧ 10 ≤ hop_sleep_ms c5hopA
       ∧ hop_sleep_ms c5hopA = max 10 800) :=
  ⟨⟨rfl, rfl⟩, hop_delay_variants c5hopOut c5hopA 800 rfl rfl⟩

/-- C6.  No-TTL route: if the route TTL is unset and no hop carries an
override, no hop message of any traversal carries a `ttlMs` field; message
building is total (no error), and both variants' `make_packet` write the
`ttlMs` key exactly when the value to send is not `None`. -/
theorem no_ttl_route_omits_field (r : RouteRuntime) (packet_id : String)
    (step : StatusStep) (idx total : Nat)
    (hhops : ∀ h ∈ r.hops, h.ttl_ms = none) :
    (∀ msg ∈ send_one_packet_sequence none r packet_id step idx total,
        msg.ttlMs = none)
    ∧ (∀ hop pid2 t, ((make_packet hop pid2 t).ttlMs.isSome ↔ t.isSome))
    ∧ (∀ hop pid2 t,
        ((Outdated.make_packet hop pid2 t).ttlMs.isSome ↔ t.isSome)) := by
  refine ⟨?_, fun hop pid2 t => by cases t <;> simp [make_packet],
    fun hop pid2 t => by cases t <;> simp [Outdated.make_packet]⟩
  intro msg hmsg
  unfold send_one_packet_sequence at hmsg
  obtain ⟨p, hp, rfl⟩ := List.mem_map.mp hmsg
  have hmem : p.2 ∈ r.hops := by
    rw [List.mem_enum_iff_getElem?] at hp
    exact List.getElem?_mem hp
  have hov : p.2.ttl_ms = none := hhops _ hmem
  rw [ttlMs_make_packet_with_route]
  unfold ttl_to_send
  rw [hov]
  by_cases h0 : p.1 = 0 <;> simp [h0]

/-- C6 witness: a two-hop route with no overrides and the route TTL unset. -/
theorem no_ttl_route_omits_field_witness :
    (∀ h ∈ c6route.hops, h.ttl_ms = none)
    ∧ ((∀ msg ∈ send_one_packet_sequence none c6route "p" { status := "" } 0 0,
          msg.ttlMs = none)
       ∧ (∀ hop pid2 t, ((make_packet hop pid2 t).ttlMs.isSome ↔ t.isSome))
       ∧ (∀ hop pid2 t,
           ((Outdated.make_packet hop pid2 t).ttlMs.isSome ↔ t.isSome))) :=
  ⟨by decide, no_ttl_route_omits_field c6route "p" { status := "" } 0 0 (by decide)⟩

/-- C8.  A route with an empty hop list makes `loop_route_sender` emit exactly
one warn-level log message and return without reaching the injection loop: no
traversal task is created and no packet message is emitted. -/
theorem empty_hops_single_warning (r : RouteRuntime) (h : r.hops = []) :
    (∃ t, (loop_route_sender_init r).1 = [OutMsg.log "warn" t])
    ∧ (loop_route_sender_init r).2 = false
    ∧ ∀ p, OutMsg.packet p ∉ (loop_route_sender_init r).1 := by
  unfold loop_route_sender_init
  rw [if_pos h]
  refine ⟨⟨_, rfl⟩, rfl, ?_⟩
  intro p hp
  simp [make_log] at hp

/-- C8 witness: the hop-less route. -/
theorem empty_hops_single_warning_witness :
    c8route.hops = []
    ∧ ((∃ t, (loop_route_sender_init c8route).1 = [OutMsg.log "warn" t])
       ∧ (loop_route_sender_init c8route).2 = false
       ∧ ∀ p, OutMsg.packet p ∉ (loop_route_sender_init c8route).1) :=
  ⟨rfl, empty_hops_single_warning c8route rfl⟩

/-- C9.  Stop idempotence (spec-modelled control surface): stopping a route id
with no registered runtime reports failure, leaves the registry unchanged,
and sends nothing to the peer except the single warn-level failure notice —
in particular no packet message. -/
theorem stop_inactive_route_noop (registry : Int → Option RouteRuntime)
    (route_id : Int) (h : registry route_id = none) :
    (registry_stop registry route_id).1 = registry
    ∧ (registry_stop registry route_id).2.1 = false
    ∧ (∃ t, (registry_stop registry route_id).2.2 = [OutMsg.log "warn" t])
    ∧ ∀ p, OutMsg.packet p ∉ (registry_stop registry route_id).2.2 := by
  unfold registry_stop
  rw [h]
  refine ⟨rfl, rfl, ⟨_, rfl⟩, ?_⟩
  intro p hp
  simp [make_log] at hp

/-- C9 witness: stopping on an empty registry. -/
theorem stop_inactive_route_noop_witness :
    (fun _ => (none : Option RouteRuntime)) 37 = none
    ∧ ((registry_stop (fun _ => none) 37).1 = (fun _ => none)
       ∧ (registry_stop (fun _ => none) 37).2.1 = false
       ∧ (∃ t, (registry_stop (fun _ => none) 37).2.2 = [OutMsg.log "warn" t])
       ∧ ∀ p, OutMsg.packet p ∉ (registry_stop (fun _ => none) 37).2.2) :=
  ⟨rfl, stop_inactive_route_noop (fun _ => none) 37 rfl⟩

/-- C10.  `snapshot` is total and in-range for every integer `step_index`:
with a non-empty step list it returns the step at index
`(step_index % total).toNat`, which is always `< total` (and 0 when there is
exactly one step, since `x % 1 = 0`); with an empty list it returns the
empty-label step with counters `(0, 0)`.  The indexing obligation is
discharged inside the definition, so no out-of-range access can occur. -/
theorem snapshot_index_in_range (r : RouteRuntime) :
    (r.steps = [] → r.snapshot = ({ status := "" }, 0, 0))
    ∧ (r.steps ≠ [] →
        (r.snapshot.2.2 = r.steps.length
         ∧ r.snapshot.2.1 < r.steps.length
         ∧ r.snapshot.2.1 = (r.step_index % (r.steps.length : Int)).toNat
         ∧ (r.steps.length = 1 → r.snapshot.2.1 = 0)
         ∧ r.snapshot.1 = r.steps.getD r.snapshot.2.1 { status := "" })) := by
  constructor
  · intro h
    unfold RouteRuntime.snapshot
    rw [dif_pos h]
  · intro h
    have hpos : 0 < r.steps.length := List.length_pos.mpr h
    have hsnap2 : r.snapshot.2.1 = snapIdx r.step_index r.steps.length := by
      unfold RouteRuntime.snapshot
      rw [dif_neg h]
    have hlt : r.snapshot.2.1 < r.steps.length := by
      rw [hsnap2]
      exact snapIdx_lt r.step_index r.steps.length hpos
    refine ⟨?_, hlt, ?_, ?_, ?_⟩
    · unfold RouteRuntime.snapshot
      rw [dif_neg h]
    · rw [hsnap2]
      unfold snapIdx
      split
      · rename_i h1
        rw [h1]
        simp
      · rfl
    · intro h1
      rw [hsnap2]
      unfold snapIdx
      rw [if_pos h1]
    · have hget : r.snapshot.1
          = r.steps.get ⟨snapIdx r.step_index r.steps.length,
              snapIdx_lt r.step_index r.steps.length hpos⟩ := by
        unfold RouteRuntime.snapshot
        rw [dif_neg h]
      rw [hget, List.get_eq_getElem,
        List.getD_eq_getElem r.steps { status := "" } (hsnap2 ▸ hlt)]
      congr 1
      exact hsnap2.symm

/-- C10 witness: two steps and the negative index −5 (−5 mod 2 = 1). -/
theorem snapshot_index_in_range_witness :
    c10route.steps ≠ []
    ∧ (c10route.snapshot.2.2 = c10route.steps.length
       ∧ c10route.snapshot.2.1 < c10route.steps.length
       ∧ c10route.snapshot.2.1
           = (c10route.step_index % (c10route.steps.length : Int)).toNat
       ∧ (c10route.steps.length = 1 → c10route.snapshot.2.1 = 0)
       ∧ c10route.snapshot.1
           = c10route.steps.getD c10route.snapshot.2.1 { status := "" }) :=
  ⟨by decide, (snapshot_index_in_range c10route).2 (by decide)⟩
